import Mathlib

/-!
Verification development for the `sleap_io.model.instance` module
(`Point`, `PredictedPoint`, `Track`, `compare_points`, `Instance`,
`PredictedInstance`).

Python floats are modelled by `F` (NaN or a rational value); fallible
construction is modelled with `Except String`; Python `dict`s are modelled
as association lists in insertion order, with `dictInsert` reproducing
Python's overwrite-in-place-or-append semantics.

The `Skeleton`, `Node` and `Track` collaborators live outside the modelled
sources (only the spec describes them); they are modelled from the spec as
noted in their doc comments.
-/

namespace SleapIO

/-- A Python float as used by this module: NaN or a numeric value
(modelled as a rational; the claims under study do not depend on rounding). -/
inductive F where
  | nan : F
  | val : ℚ → F
deriving DecidableEq, Repr

/-- `math.isnan` / `np.isnan`. -/
def F.isNan : F → Bool
  | .nan => true
  | .val _ => false

/-- Python `==` on floats: NaN compares unequal to everything, itself included. -/
def pyEq : F → F → Bool
  | F.val a, F.val b => a == b
  | _, _ => false

/-- `_point_comparison`, i.e. `bool(np.isclose(a, b, equal_nan=True))`:
NaN is close to NaN; otherwise `|a - b| <= atol + rtol * |b|` with
`atol = 1e-8`, `rtol = 1e-5`. The numeric case is written fraction-free
(cross-multiplied) so that it evaluates by kernel reduction; the lemma
`isclose_val_iff` below shows it equal to the textbook formulation. -/
def isclose (a b : F) : Bool :=
  match a, b with
  | F.nan, F.nan => true
  | F.val x, F.val y =>
    decide ((x.num * (y.den : ℤ) - y.num * (x.den : ℤ)).natAbs * 100000000 ≤
      (y.den + 1000 * y.num.natAbs) * x.den)
  | _, _ => false

/-- Modelled from the spec: `Node` (defined in the external skeleton module,
not under the modelled sources) is a named landmark slot; nodes are
identified by their name. -/
structure Node where
  name : String
deriving DecidableEq, Repr

/-- Modelled from the spec: `Skeleton` (external collaborator) is an ordered
template of nodes offering a node count, lookup by name/index, and the
positional index of a node. -/
structure Skeleton where
  nodes : List Node
deriving DecidableEq, Repr

/-- Modelled from the spec: skeleton lookup by name returns the node with
that name or fails with a lookup error. -/
def Skeleton.lookupName (s : Skeleton) (nm : String) : Except String Node :=
  match s.nodes.find? (fun n => n.name == nm) with
  | some n => .ok n
  | none => .error ("KeyError: " ++ nm)

/-- Modelled from the spec: skeleton lookup by position. -/
def Skeleton.lookupIdx (s : Skeleton) (i : Nat) : Except String Node :=
  match s.nodes.get? i with
  | some n => .ok n
  | none => .error "IndexError: node index out of range"

/-- First position of a node in the skeleton's node list. -/
def Skeleton.indexOfNode (s : Skeleton) (n : Node) : Nat :=
  s.nodes.indexOf n

/-- Modelled from the spec: `skeleton.index(node)` returns the positional
index of a node, failing when the node is not part of the skeleton. -/
def Skeleton.index (s : Skeleton) (n : Node) : Except String Nat :=
  if n ∈ s.nodes then .ok (s.indexOfNode n) else .error "ValueError: node not in skeleton"

/-- Modelled from the spec: `Track` is compared by object identity; the
`oid` field stands for the identity of the underlying Python object, so two
tracks with the same name but different `oid` model distinct objects. -/
structure Track where
  name : String
  oid : Nat
deriving DecidableEq, Repr

/-- `Point`: a 2D landmark. Defaults: `visible = true`, `complete = false`. -/
structure Point where
  x : F
  y : F
  visible : Bool := true
  complete : Bool := false
deriving DecidableEq, Repr

/-- The attrs-generated `Point.__eq__`: `x` and `y` are compared with
`_point_comparison` (NaN-aware `isclose`), `visible` and `complete` with
ordinary equality (attrs includes every field in the comparison tuple). -/
def Point.beq (a b : Point) : Bool :=
  isclose a.x b.x && isclose a.y b.y && a.visible == b.visible && a.complete == b.complete

/-- `Point.numpy()`: `[x, y]` when visible, else `[nan, nan]`. -/
def Point.numpy (p : Point) : List F :=
  if p.visible then [p.x, p.y] else [F.nan, F.nan]

/-- `PredictedPoint`: a `Point` plus a prediction `score` (default `0.0`). -/
structure PredictedPoint where
  x : F
  y : F
  visible : Bool := true
  complete : Bool := false
  score : F := F.val 0
deriving DecidableEq, Repr

/-- The attrs-generated `PredictedPoint.__eq__`: like `Point` plus the
inherited-by-default comparison of `score` under Python float equality. -/
def PredictedPoint.beq (a b : PredictedPoint) : Bool :=
  isclose a.x b.x && isclose a.y b.y && a.visible == b.visible
    && a.complete == b.complete && pyEq a.score b.score

/-- `PredictedPoint.numpy()`: `[x, y, score]` when visible, else three NaNs. -/
def PredictedPoint.numpy (p : PredictedPoint) : List F :=
  if p.visible then [p.x, p.y, p.score] else [F.nan, F.nan, F.nan]

/-- Keys of a node-to-point mapping, in insertion order. -/
def keysOf {P : Type} (d : List (Node × P)) : List Node := d.map Prod.fst

/-- Python `dict.get(n, None)` on a node-to-point mapping. -/
def lookupNode {P : Type} (d : List (Node × P)) (n : Node) : Option P :=
  (d.find? (fun kv => kv.fst == n)).map Prod.snd

/-- `compare_points`: the key sets must coincide exactly, and then every
node's points must be equal under the point-level equality. -/
def compare_points {P : Type} (peq : P → P → Bool) (a b : List (Node × P)) : Bool :=
  if (keysOf a).all (fun k => (keysOf b).contains k)
      && (keysOf b).all (fun k => (keysOf a).contains k) then
    a.all (fun kv =>
      match lookupNode b kv.fst with
      | some q => peq kv.snd q
      | none => false)
  else false

/-- A key of a caller-supplied points dictionary: a `Node` object or a name. -/
inductive RawKey where
  | node : Node → RawKey
  | name : String → RawKey
deriving DecidableEq, Repr

/-- A caller-supplied point value: a coordinate pair, a `Point` object, or a
`PredictedPoint` object. -/
inductive RawPoint where
  | coords : F → F → RawPoint
  | pt : Point → RawPoint
  | ppt : PredictedPoint → RawPoint
deriving DecidableEq, Repr

/-- The three accepted shapes of the `points` argument: a numpy array of
shape `(n, 2)`, a list, or a dictionary. -/
inductive PointsInput where
  | arr : List (F × F) → PointsInput
  | list : List RawPoint → PointsInput
  | dict : List (RawKey × RawPoint) → PointsInput
deriving DecidableEq, Repr

/-- Python dict insertion: overwrite the value in place when the key is
already present, otherwise append the new entry. -/
def dictInsert {P : Type} (d : List (Node × P)) (k : Node) (v : P) : List (Node × P) :=
  if d.any (fun kv => kv.fst == k) then
    d.map (fun kv => if kv.fst == k then (kv.fst, v) else kv)
  else d ++ [(k, v)]

/-- Build a Python dict from a list of key-value pairs (`{k: v for k, v in ...}`). -/
def dictOfPairs {P : Type} (l : List (Node × P)) : List (Node × P) :=
  l.foldl (fun d kv => dictInsert d kv.fst kv.snd) []

/-- `Instance._make_default_point`: `_POINT_TYPE(x, y, visible=not (isnan x or isnan y))`. -/
def make_default_point (x y : F) : Point :=
  { x := x, y := y, visible := !(x.isNan || y.isNan), complete := false }

/-- `PredictedInstance._make_default_point` (with `_POINT_TYPE = PredictedPoint`). -/
def make_default_pred_point (x y : F) : PredictedPoint :=
  { x := x, y := y, visible := !(x.isNan || y.isNan), complete := false, score := F.val 0 }

/-- Resolve a dictionary key: a `Node` object passes through unchecked, a
name is looked up in the skeleton. -/
def resolveKey (skel : Skeleton) : RawKey → Except String Node
  | .node n => .ok n
  | .name s => skel.lookupName s

/-- Resolve a dictionary value: a value already of the instance's point type
passes through; otherwise it is unpacked as a coordinate pair into
`_make_default_point` (unpacking a point object of the wrong type fails). -/
def resolveVal {P : Type} (asP : RawPoint → Option P) (mkDef : F → F → P)
    (v : RawPoint) : Except String P :=
  match asP v with
  | some p => .ok p
  | none =>
    match v with
    | .coords x y => .ok (mkDef x y)
    | _ => .error "TypeError: cannot unpack a point object of the wrong type"

/-- Fill in every skeleton node missing from the mapping with an invisible
default point at `(nan, nan)`. -/
def addMissing {P : Type} (mkDef : F → F → P) (skel : Skeleton)
    (pts : List (Node × P)) : List (Node × P) :=
  pts ++ (skel.nodes.filter (fun n => !((keysOf pts).contains n))).map
    (fun n => (n, mkDef F.nan F.nan))

/-- The dictionary branch of `_convert_points`: resolve all keys (which may
fail on an unknown name), then all values, rebuild the dict, and append
defaults for the missing nodes. -/
def dictStage {P : Type} (asP : RawPoint → Option P) (mkDef : F → F → P)
    (skel : Skeleton) (es : List (RawKey × RawPoint)) :
    Except String (List (Node × P)) := do
  let ks ← es.mapM (fun e => resolveKey skel e.fst)
  let vs ← es.mapM (fun e => resolveVal asP mkDef e.snd)
  .ok (addMissing mkDef skel (dictOfPairs (ks.zip vs)))

/-- The error message raised on a list of the wrong length. -/
def lengthErrMsg : String :=
  "ValueError: If specifying points as a list, must provide as many points as nodes in the skeleton."

/-- The list branch of `_convert_points`: the list length must equal the
skeleton's node count; the list is then zipped positionally with the
skeleton's nodes and handed to the dictionary branch. -/
def listStage {P : Type} (asP : RawPoint → Option P) (mkDef : F → F → P)
    (skel : Skeleton) (items : List RawPoint) : Except String (List (Node × P)) :=
  if items.length ≠ skel.nodes.length then .error lengthErrMsg
  else dictStage asP mkDef skel
    ((skel.nodes.zip items).map (fun nv => (RawKey.node nv.fst, nv.snd)))

/-- `_convert_points`, generic in the instance's `_POINT_TYPE`: a numpy
array is first turned into a list of coordinate pairs, then the list and
dictionary branches run as in the source. -/
def convert_points_gen {P : Type} (asP : RawPoint → Option P) (mkDef : F → F → P)
    (skel : Skeleton) : PointsInput → Except String (List (Node × P))
  | .arr rows => listStage asP mkDef skel (rows.map (fun r => RawPoint.coords r.fst r.snd))
  | .list items => listStage asP mkDef skel items
  | .dict es => dictStage asP mkDef skel es

/-- `type(point) == Point` check used by `Instance._convert_points`. -/
def asPointVal : RawPoint → Option Point
  | .pt p => some p
  | _ => none

/-- `type(point) == PredictedPoint` check used by `PredictedInstance`. -/
def asPredPointVal : RawPoint → Option PredictedPoint
  | .ppt p => some p
  | _ => none

/-- `Instance._convert_points`. -/
def convert_points (skel : Skeleton) (input : PointsInput) :
    Except String (List (Node × Point)) :=
  convert_points_gen asPointVal make_default_point skel input

/-- `PredictedInstance._convert_points` (`_POINT_TYPE = PredictedPoint`). -/
def convert_pred_points (skel : Skeleton) (input : PointsInput) :
    Except String (List (Node × PredictedPoint)) :=
  convert_points_gen asPredPointVal make_default_pred_point skel input

/-- A constructed `PredictedInstance`. Its `from_predicted` field is not
stored: the attrs validator pins it to `None` at construction (see
`PredictedInstance.make`), so on every constructed value it is `None` and
its contribution to the attrs equality is vacuous. -/
structure PredictedInstance where
  points : List (Node × PredictedPoint)
  skeleton : Skeleton
  track : Option Track
  score : F
  trackingScore : Option F
deriving DecidableEq, Repr

/-- A constructed `Instance`. -/
structure Instance where
  points : List (Node × Point)
  skeleton : Skeleton
  track : Option Track
  from_predicted : Option PredictedInstance
deriving DecidableEq, Repr

/-- Python `==` lifted to `Optional` values (`None == None` is true,
`None` is unequal to any present value). -/
def optBeq {α : Type} (eq : α → α → Bool) : Option α → Option α → Bool
  | none, none => true
  | some a, some b => eq a b
  | _, _ => false

/-- The attrs-generated `PredictedInstance.__eq__`: points via
`compare_points`, skeleton structurally, track by object identity, scores
under Python float equality (the validated-to-`None` `from_predicted`
comparison is vacuous). -/
def PredictedInstance.beq (a b : PredictedInstance) : Bool :=
  compare_points PredictedPoint.beq a.points b.points
    && a.skeleton == b.skeleton
    && a.track == b.track
    && pyEq a.score b.score
    && optBeq pyEq a.trackingScore b.trackingScore

/-- The attrs-generated `Instance.__eq__`: attrs compares every field, so
besides the `compare_points` comparison of `points` it also compares
`skeleton`, `track` (object identity) and `from_predicted`. -/
def Instance.beq (a b : Instance) : Bool :=
  compare_points Point.beq a.points b.points
    && a.skeleton == b.skeleton
    && a.track == b.track
    && optBeq PredictedInstance.beq a.from_predicted b.from_predicted

/-- `Instance(...)`: construction runs `_convert_points` on the supplied
points (via `__attrs_post_init__`); a conversion failure means no instance
is created. -/
def Instance.make (points : PointsInput) (skeleton : Skeleton)
    (track : Option Track) (from_predicted : Option PredictedInstance) :
    Except String Instance := do
  let pts ← convert_points skeleton points
  .ok { points := pts, skeleton := skeleton, track := track, from_predicted := from_predicted }

/-- Reassignment of `instance.points`: the `on_setattr` hook re-runs
`_convert_points` against the instance's skeleton. -/
def Instance.setPoints (inst : Instance) (points : PointsInput) : Except String Instance := do
  let pts ← convert_points inst.skeleton points
  .ok { inst with points := pts }

/-- `Instance.from_numpy`: delegates the array to the standard constructor. -/
def Instance.from_numpy (arr : List (F × F)) (skeleton : Skeleton)
    (track : Option Track) : Except String Instance :=
  Instance.make (.arr arr) skeleton track none

/-- One step of the loop in `Instance.numpy()`: a visible point is written
at its node's skeleton index; the index lookup can fail for a node foreign
to the skeleton. -/
def numpyStep (skel : Skeleton) (acc : List (F × F)) (kv : Node × Point) :
    Except String (List (F × F)) :=
  if kv.snd.visible then
    match skel.index kv.fst with
    | .ok i => .ok (acc.set i (kv.snd.x, kv.snd.y))
    | .error e => .error e
  else .ok acc

/-- `Instance.numpy()`: start from an `(n_nodes, 2)` array of NaNs and write
every visible point at its node's index, in mapping order. -/
def Instance.numpy (inst : Instance) : Except String (List (F × F)) :=
  inst.points.foldlM (numpyStep inst.skeleton)
    (List.replicate inst.skeleton.nodes.length (F.nan, F.nan))

/-- A selector accepted by `Instance.__getitem__`: a position, a name, or a
`Node` object. -/
inductive Selector where
  | idx : Nat → Selector
  | name : String → Selector
  | node : Node → Selector
deriving DecidableEq, Repr

/-- `Instance.__getitem__`: integers and names are resolved through the
skeleton first (propagating its lookup error); a `Node` is looked up
directly with `dict.get(node, None)`. -/
def Instance.getItem (inst : Instance) (sel : Selector) : Except String (Option Point) :=
  match sel with
  | .idx i => do
    let n ← inst.skeleton.lookupIdx i
    .ok (lookupNode inst.points n)
  | .name s => do
    let n ← inst.skeleton.lookupName s
    .ok (lookupNode inst.points n)
  | .node n => .ok (lookupNode inst.points n)

/-- `PredictedInstance(...)`: the attrs validator
`validators.instance_of(type(None))` on `from_predicted` rejects any
non-`None` value; then `_convert_points` runs as for `Instance`. -/
def PredictedInstance.make (points : PointsInput) (skeleton : Skeleton)
    (track : Option Track) (from_predicted : Option PredictedInstance)
    (score : F) (trackingScore : Option F) : Except String PredictedInstance :=
  if from_predicted.isSome then
    .error "TypeError: from_predicted must be None"
  else do
    let pts ← convert_pred_points skeleton points
    .ok { points := pts, skeleton := skeleton, track := track, score := score,
          trackingScore := trackingScore }

/-! Spec-side predicates (stated from the spec's words, to be compared with
the embedded code) and concrete fixtures used by counterexamples and
witnesses. -/

/-- Spec-side statement of the NaN-aware coordinate comparison: NaN equals
NaN, and numeric values are compared with `isclose`'s tolerance. -/
def nanAwareClose (a b : F) : Prop :=
  (a = F.nan ∧ b = F.nan) ∨
    ∃ p q : ℚ, a = F.val p ∧ b = F.val q ∧ |p - q| ≤ 1 / 100000000 + |q| / 100000

/-- Spec-side statement of Python float equality: both operands are the same
numeric (non-NaN) value. -/
def pyEqProp (a b : F) : Prop := ∃ p : ℚ, a = F.val p ∧ b = F.val p

/-- A node named `A`. -/
def nA : Node := { name := "A" }

/-- A node named `B`, not part of `skel1`. -/
def nB : Node := { name := "B" }

/-- A one-node skeleton. -/
def skel1 : Skeleton := { nodes := [nA] }

/-- A normalized one-entry point mapping for `skel1`. -/
def ptsA : List (Node × Point) := [(nA, { x := F.val 1, y := F.val 2 })]

/-- A track object (distinct from every other object by its identity tag). -/
def trackT : Track := { name := "t", oid := 0 }

/-- The instance built from `ptsA` with no track. -/
def instNoTrack : Instance :=
  { points := ptsA, skeleton := skel1, track := none, from_predicted := none }

/-- The instance built from `ptsA` with track `trackT`. -/
def instTrack : Instance :=
  { points := ptsA, skeleton := skel1, track := some trackT, from_predicted := none }

/-- The node named `head`. -/
def nHead : Node := { name := "head" }

/-- The node named `tail`. -/
def nTail : Node := { name := "tail" }

/-- The node named `thorax`. -/
def nThorax : Node := { name := "thorax" }

/-- The spec's example three-node skeleton `[head, tail, thorax]`. -/
def skel3 : Skeleton := { nodes := [nHead, nTail, nThorax] }

/-- An arbitrary constructed `PredictedInstance`, used as a non-`None`
value for `from_predicted`. -/
def dummyPred : PredictedInstance :=
  { points := [(nA, make_default_pred_point F.nan F.nan)], skeleton := skel1,
    track := none, score := F.val 0, trackingScore := none }

/-- Total extractor for the node carried by a raw key (junk on names);
used to phrase `mapM` computations whose inputs are all `RawKey.node`. -/
def rawKeyNode : RawKey → Node
  | .node n => n
  | .name _ => { name := "" }

/-- Total extractor matching `resolveVal asPointVal make_default_point` on
the raw values it accepts. -/
def rawPointVal : RawPoint → Point
  | .pt p => p
  | .coords x y => make_default_point x y
  | .ppt _ => make_default_point F.nan F.nan

instance {ε α : Type} [DecidableEq ε] [DecidableEq α] : DecidableEq (Except ε α) := fun x y =>
  match x, y with
  | .ok a, .ok b =>
    if h : a = b then isTrue (by rw [h]) else isFalse (fun c => h (Except.ok.inj c))
  | .error a, .error b =>
    if h : a = b then isTrue (by rw [h]) else isFalse (fun c => h (Except.error.inj c))
  | .ok _, .error _ => isFalse (fun c => Except.noConfusion c)
  | .error _, .ok _ => isFalse (fun c => Except.noConfusion c)

/-- Spec-side statement that a raw dictionary key denotes the node `n`
(either it is the node object itself, or a name that the skeleton resolves
to `n`). -/
def keyResolvesTo (skel : Skeleton) (k : RawKey) (n : Node) : Prop :=
  resolveKey skel k = .ok n

instance (skel : Skeleton) (k : RawKey) (n : Node) : Decidable (keyResolvesTo skel k n) :=
  inferInstanceAs (Decidable (resolveKey skel k = .ok n))

/-- The invisible NaN point that `_convert_points` synthesizes for a
missing node. -/
def invisibleNanPoint : Point :=
  { x := F.nan, y := F.nan, visible := false, complete := false }

/-- The point mapping the spec's §8 example expects for
`Instance(points={"head": (1,1)}, skeleton=skel3)`. -/
def headExamplePts : List (Node × Point) :=
  [(nHead, { x := F.val 1, y := F.val 1, visible := true, complete := false }),
   (nTail, invisibleNanPoint), (nThorax, invisibleNanPoint)]

/-- A prediction over `skel1` with instance score `0`. -/
def predScore0 : PredictedInstance :=
  { points := [(nA, make_default_pred_point (F.val 1) (F.val 2))], skeleton := skel1,
    track := none, score := F.val 0, trackingScore := none }

/-- Identical to `predScore0` except for an instance score of `1`. -/
def predScore1 : PredictedInstance :=
  { points := [(nA, make_default_pred_point (F.val 1) (F.val 2))], skeleton := skel1,
    track := none, score := F.val 1, trackingScore := none }

/-- Spec-side condition: every `Node`-object key of a dictionary input
belongs to the skeleton (list/array inputs satisfy it trivially; name keys
are resolved through the skeleton and so always satisfy it). -/
def inputNodeKeysOk (skel : Skeleton) : PointsInput → Prop
  | .dict es => ∀ e ∈ es, ∀ n : Node, e.fst = RawKey.node n → n ∈ skel.nodes
  | _ => True

/-- Spec-side statement of the key-set property claimed for normalized
point mappings: the keys always cover the skeleton's nodes, and under
`inputNodeKeysOk` they are exactly the skeleton's node set, with the
mapping's size equal to the node count. -/
def ConvertKeysSpec (skel : Skeleton) (input : PointsInput) (pts : List (Node × Point)) : Prop :=
  (∀ n ∈ skel.nodes, n ∈ keysOf pts) ∧
  (inputNodeKeysOk skel input →
    (∀ n : Node, n ∈ keysOf pts ↔ n ∈ skel.nodes) ∧ pts.length = skel.nodes.length)

/-- A full-length list input for the three-node skeleton. -/
def c3input : PointsInput :=
  .list [RawPoint.coords (F.val 1) (F.val 1), RawPoint.coords (F.val 2) (F.val 2),
         RawPoint.coords (F.val 3) (F.val 3)]

/-- The instance `c3input` constructs over `skel3`. -/
def c3inst : Instance :=
  { points := [(nHead, { x := F.val 1, y := F.val 1, visible := true, complete := false }),
               (nTail, { x := F.val 2, y := F.val 2, visible := true, complete := false }),
               (nThorax, { x := F.val 3, y := F.val 3, visible := true, complete := false })],
    skeleton := skel3, track := none, from_predicted := none }

/-- Spec-side description of the actual round-trip behavior: a row with any
NaN coordinate collapses to `(NaN, NaN)`; fully numeric rows survive. -/
def collapseRow (r : F × F) : F × F :=
  if r.fst.isNan || r.snd.isNan then (F.nan, F.nan) else r

/-- The pure form of `numpyStep`, defined when every written node is in the
skeleton. -/
def numpyStepP (skel : Skeleton) (acc : List (F × F)) (kv : Node × Point) : List (F × F) :=
  if kv.snd.visible then acc.set (skel.indexOfNode kv.fst) (kv.snd.x, kv.snd.y) else acc

/-- The index/value write operations performed by `Instance.numpy()`. -/
def opsOf (skel : Skeleton) (l : List (Node × Point)) : List (Nat × (F × F)) :=
  l.filterMap (fun kv =>
    if kv.snd.visible then some (skel.indexOfNode kv.fst, (kv.snd.x, kv.snd.y)) else none)

/-- A two-node skeleton. -/
def skel2 : Skeleton := { nodes := [nA, nB] }

/-- The instance `from_numpy [(1,2), (nan,nan)]` constructs over `skel2`. -/
def c4inst : Instance :=
  { points := [(nA, { x := F.val 1, y := F.val 2, visible := true, complete := false }),
               (nB, { x := F.nan, y := F.nan, visible := false, complete := false })],
    skeleton := skel2, track := none, from_predicted := none }

/-- The instance the spec's §8 example expects. -/
def headExample : Instance :=
  { points := headExamplePts, skeleton := skel3, track := none, from_predicted := none }

end SleapIO

/-! Theorems. -/

namespace SleapIO

lemma isclose_val_iff (x y : ℚ) :
    isclose (F.val x) (F.val y) = true ↔ |x - y| ≤ 1 / 100000000 + |y| / 100000 := by
  have hB : (0:ℚ) < (x.den : ℚ) := by exact_mod_cast x.den_pos
  have hD : (0:ℚ) < (y.den : ℚ) := by exact_mod_cast y.den_pos
  rw [isclose, decide_eq_true_iff, ← Nat.cast_le (α := ℚ)]
  push_cast [Int.cast_natAbs]
  have e1 : |x - y| = |(x.num:ℚ) * (y.den:ℚ) - (y.num:ℚ) * (x.den:ℚ)| / ((x.den:ℚ) * (y.den:ℚ)) := by
    conv_lhs => rw [← Rat.num_div_den x, ← Rat.num_div_den y]
    rw [div_sub_div _ _ hB.ne' hD.ne', abs_div, abs_of_pos (mul_pos hB hD)]
    congr 1
    ring_nf
  have e2 : 1/100000000 + |y| / 100000
      = ((y.den:ℚ) + 1000 * |(y.num:ℚ)|) / ((y.den:ℚ) * 100000000) := by
    conv_lhs => rw [← Rat.num_div_den y]
    rw [abs_div, abs_of_pos hD]
    field_simp
    ring
  rw [e1, e2, div_le_div_iff₀ (mul_pos hB hD) (by positivity)]
  constructor
  · intro h
    nlinarith [mul_le_mul_of_nonneg_right h hD.le]
  · intro h
    have h2 : (|(x.num:ℚ) * (y.den:ℚ) - (y.num:ℚ) * (x.den:ℚ)| * 100000000) * (y.den:ℚ)
        ≤ (((y.den:ℚ) + 1000 * |(y.num:ℚ)|) * (x.den:ℚ)) * (y.den:ℚ) := by nlinarith
    exact le_of_mul_le_mul_right h2 hD

lemma isclose_iff (a b : F) : isclose a b = true ↔ nanAwareClose a b := by
  cases a with
  | nan =>
    cases b with
    | nan => simp [isclose, nanAwareClose]
    | val q => simp [isclose, nanAwareClose]
  | val p =>
    cases b with
    | nan => simp [isclose, nanAwareClose]
    | val q =>
      rw [isclose_val_iff]
      constructor
      · intro h
        exact Or.inr ⟨p, q, rfl, rfl, h⟩
      · rintro (⟨h, -⟩ | ⟨p', q', hp, hq, h⟩)
        · exact absurd h (by simp)
        · cases hp
          cases hq
          exact h

lemma pyEq_iff (a b : F) : pyEq a b = true ↔ pyEqProp a b := by
  cases a with
  | nan => simp [pyEq, pyEqProp]
  | val p =>
    cases b with
    | nan => simp [pyEq, pyEqProp]
    | val q =>
      simp only [pyEq, pyEqProp, beq_iff_eq]
      constructor
      · rintro rfl
        exact ⟨p, rfl, rfl⟩
      · rintro ⟨r, hp, hq⟩
        cases hp
        cases hq
        rfl

lemma keysOf_append {P : Type} (a b : List (Node × P)) :
    keysOf (a ++ b) = keysOf a ++ keysOf b := List.map_append _ _ _

lemma keysOf_cons {P : Type} (kv : Node × P) (t : List (Node × P)) :
    keysOf (kv :: t) = kv.fst :: keysOf t := rfl

lemma mapM_ok_of_forall {α β : Type} (f : α → Except String β) (g : α → β) :
    ∀ l : List α, (∀ x ∈ l, f x = .ok (g x)) → l.mapM f = .ok (l.map g) := by
  intro l
  induction l with
  | nil => intro _; rfl
  | cons a t ih =>
    intro h
    rw [List.mapM_cons, h a (List.mem_cons_self a t),
      ih (fun x hx => h x (List.mem_cons_of_mem a hx))]
    rfl

lemma dictInsert_not_mem {P : Type} (d : List (Node × P)) (k : Node) (v : P)
    (h : k ∉ keysOf d) : dictInsert d k v = d ++ [(k, v)] := by
  have hany : d.any (fun kv => kv.fst == k) = false := by
    rw [List.any_eq_false]
    intro kv hkv
    simp only [beq_iff_eq]
    intro he
    exact h (he ▸ List.mem_map_of_mem Prod.fst hkv)
  simp [dictInsert, hany]

lemma foldl_dictInsert_nodup {P : Type} :
    ∀ (l d0 : List (Node × P)), (keysOf d0 ++ keysOf l).Nodup →
      l.foldl (fun d kv => dictInsert d kv.fst kv.snd) d0 = d0 ++ l := by
  intro l
  induction l with
  | nil => intro d0 _; simp
  | cons a t ih =>
    intro d0 h
    have hk : a.fst ∉ keysOf d0 := by
      rcases List.nodup_append.mp h with ⟨-, -, hdisj⟩
      intro hmem
      exact hdisj hmem (by simp [keysOf_cons])
    have hstep : dictInsert d0 a.fst a.snd = d0 ++ [a] := by
      rw [dictInsert_not_mem d0 a.fst a.snd hk]
    rw [List.foldl_cons, hstep, ih (d0 ++ [a]) ?_]
    · simp
    · rw [keysOf_append]
      simpa [keysOf_cons, List.append_assoc] using h

lemma dictOfPairs_nodup {P : Type} (l : List (Node × P)) (h : (keysOf l).Nodup) :
    dictOfPairs l = l := by
  rw [dictOfPairs, foldl_dictInsert_nodup l [] (by simpa [keysOf] using h)]
  simp

lemma addMissing_of_complete {P : Type} (mkDef : F → F → P) (skel : Skeleton)
    (pts : List (Node × P)) (h : ∀ n ∈ skel.nodes, n ∈ keysOf pts) :
    addMissing mkDef skel pts = pts := by
  rw [addMissing]
  have hfil : skel.nodes.filter (fun n => !((keysOf pts).contains n)) = [] := by
    rw [List.filter_eq_nil_iff]
    intro n hn
    simp [h n hn]
  rw [hfil]
  simp

lemma zip_fst_snd {α β : Type} :
    ∀ l : List (α × β), (l.map Prod.fst).zip (l.map Prod.snd) = l := by
  intro l
  induction l with
  | nil => rfl
  | cons a t ih => simp [ih]

/-- C1 (counterexample). The claim asserts that `visible` does not influence
`Point` equality, in particular that `Point(1,2,visible=True) ==
Point(1,2,visible=False)` is true. The attrs-generated equality compares
every field, `visible` included, so this comparison is false in the code. -/
theorem C1_counterexample :
    Point.beq { x := F.val 1, y := F.val 2, visible := true }
      { x := F.val 1, y := F.val 2, visible := false } = false := by decide

/-- C1 (amended). `Point` equality holds iff `x` and `y` agree under the
NaN-aware `isclose` comparison AND `visible` and `complete` agree;
`PredictedPoint` equality additionally requires the scores to agree under
Python float equality (so a NaN score is unequal even to itself). The
claim's remaining examples hold: `Point(nan,nan) == Point(nan,nan)` is true
and `Point(1,2) == Point(1,3)` is false. -/
theorem C1_amended :
    (∀ a b : Point, Point.beq a b = true ↔
      (nanAwareClose a.x b.x ∧ nanAwareClose a.y b.y ∧
        a.visible = b.visible ∧ a.complete = b.complete)) ∧
    (∀ c d : PredictedPoint, PredictedPoint.beq c d = true ↔
      (nanAwareClose c.x d.x ∧ nanAwareClose c.y d.y ∧
        c.visible = d.visible ∧ c.complete = d.complete ∧ pyEqProp c.score d.score)) ∧
    Point.beq { x := F.nan, y := F.nan } { x := F.nan, y := F.nan } = true ∧
    Point.beq { x := F.val 1, y := F.val 2 } { x := F.val 1, y := F.val 3 } = false := by
  refine ⟨?_, ?_, by decide, by decide⟩
  · intro a b
    simp [Point.beq, Bool.and_eq_true, isclose_iff, and_assoc]
  · intro c d
    simp [PredictedPoint.beq, Bool.and_eq_true, isclose_iff, pyEq_iff, and_assoc]

/-- C2 (counterexample). Two instances are constructed from the same points
over the same skeleton, one with a track and one without. Their point
mappings are equal under `compare_points`, yet the attrs-generated equality
compares the `track` field too, so the instances are unequal — refuting the
claim that equality depends only on the point mappings. -/
theorem C2_counterexample :
    Instance.make (.dict [(RawKey.node nA, RawPoint.pt { x := F.val 1, y := F.val 2 })])
      skel1 none none = .ok instNoTrack ∧
    Instance.make (.dict [(RawKey.node nA, RawPoint.pt { x := F.val 1, y := F.val 2 })])
      skel1 (some trackT) none = .ok instTrack ∧
    compare_points Point.beq instNoTrack.points instTrack.points = true ∧
    Instance.beq instNoTrack instTrack = false :=
  ⟨rfl, rfl, by decide, by decide⟩

/-- C2 (amended). The attrs-generated `Instance` equality compares the point
mapping via `compare_points` AND the `skeleton`, `track` (by object
identity) and `from_predicted` fields; equal point mappings alone do not
make two instances equal. -/
theorem C2_amended (a b : Instance) :
    Instance.beq a b = true ↔
      (compare_points Point.beq a.points b.points = true ∧ a.skeleton = b.skeleton ∧
        a.track = b.track ∧ optBeq PredictedInstance.beq a.from_predicted b.from_predicted = true) := by
  simp [Instance.beq, Bool.and_eq_true, and_assoc]

/-- C6 (confirmed). A list (or array, which is first converted to a list)
whose length differs from the skeleton's node count makes construction fail
with the length-mismatch `ValueError`; in the `Except` model the error means
no `Instance` value is produced, so no partial state is observable. -/
theorem C6 (skel : Skeleton) (items : List RawPoint) (rows : List (F × F))
    (tr : Option Track) (fp : Option PredictedInstance) :
    (items.length ≠ skel.nodes.length →
      Instance.make (.list items) skel tr fp = .error lengthErrMsg) ∧
    (rows.length ≠ skel.nodes.length →
      Instance.make (.arr rows) skel tr fp = .error lengthErrMsg) := by
  constructor
  · intro h
    simp [Instance.make, convert_points, convert_points_gen, listStage, h, Bind.bind, Except.bind]
  · intro h
    simp [Instance.make, convert_points, convert_points_gen, listStage, h, Bind.bind, Except.bind]

/-- C6 (witness): the spec's own example — two points supplied for the
three-node skeleton `[head, tail, thorax]`. -/
theorem C6_witness :
    ([RawPoint.coords (F.val 1) (F.val 1), RawPoint.coords (F.val 2) (F.val 2)].length ≠
      skel3.nodes.length) ∧
    Instance.make (.list [RawPoint.coords (F.val 1) (F.val 1),
      RawPoint.coords (F.val 2) (F.val 2)]) skel3 none none = .error lengthErrMsg :=
  ⟨by decide,
    (C6 skel3 [RawPoint.coords (F.val 1) (F.val 1), RawPoint.coords (F.val 2) (F.val 2)]
      [] none none).1 (by decide)⟩

/-- C8 (confirmed). The attrs validator on `PredictedInstance.from_predicted`
(`validators.instance_of(type(None))`) rejects every non-`None` value at
construction, and construction succeeds with `from_predicted = None`
whenever point conversion succeeds. -/
theorem C8 (input : PointsInput) (skel : Skeleton) (tr : Option Track)
    (sc : F) (ts : Option F) :
    (∀ v : PredictedInstance, PredictedInstance.make input skel tr (some v) sc ts =
      .error "TypeError: from_predicted must be None") ∧
    (∀ pts, convert_pred_points skel input = .ok pts →
      PredictedInstance.make input skel tr none sc ts =
        .ok { points := pts, skeleton := skel, track := tr, score := sc,
              trackingScore := ts }) := by
  constructor
  · intro v
    simp [PredictedInstance.make]
  · intro pts h
    simp [PredictedInstance.make, h, Bind.bind, Except.bind]

/-- C8 (witness): constructing with `from_predicted = dummyPred` fails;
the same construction with `None` succeeds. -/
theorem C8_witness :
    PredictedInstance.make (.dict []) skel1 none (some dummyPred) (F.val 0) none =
      .error "TypeError: from_predicted must be None" ∧
    PredictedInstance.make (.dict []) skel1 none none (F.val 0) none =
      .ok { points := [(nA, make_default_pred_point F.nan F.nan)], skeleton := skel1,
            track := none, score := F.val 0, trackingScore := none } :=
  ⟨(C8 (.dict []) skel1 none (F.val 0) none).1 dummyPred,
    (C8 (.dict []) skel1 none (F.val 0) none).2
      [(nA, make_default_pred_point F.nan F.nan)] rfl⟩

/-- C9 (confirmed). Indexing with a `Node` object that is not a key of the
points mapping returns the `None` sentinel without error (`dict.get`),
whereas indexing with a name absent from the skeleton propagates the
skeleton's `KeyError`. -/
theorem C9 (inst : Instance) (n : Node) (s : String) :
    (n ∉ keysOf inst.points → inst.getItem (.node n) = .ok none) ∧
    ((∀ m ∈ inst.skeleton.nodes, m.name ≠ s) →
      inst.getItem (.name s) = .error ("KeyError: " ++ s)) := by
  constructor
  · intro h
    have hfind : inst.points.find? (fun kv => kv.fst == n) = none := by
      rw [List.find?_eq_none]
      intro kv hkv
      simp only [beq_iff_eq]
      intro heq
      exact h (heq ▸ List.mem_map_of_mem Prod.fst hkv)
    simp [Instance.getItem, lookupNode, hfind]
  · intro h
    have hfind : inst.skeleton.nodes.find? (fun m => m.name == s) = none := by
      rw [List.find?_eq_none]
      intro m hm
      simpa using h m hm
    simp [Instance.getItem, Skeleton.lookupName, hfind, Bind.bind, Except.bind]

/-- C9 (witness): on a concrete instance over the one-node skeleton, the
foreign node `B` yields `None` and the unknown name `zzz` yields the
skeleton's lookup error. -/
theorem C9_witness :
    instNoTrack.getItem (.node nB) = .ok none ∧
    instNoTrack.getItem (.name "zzz") = .error ("KeyError: " ++ "zzz") :=
  ⟨(C9 instNoTrack nB "zzz").1 (by decide), (C9 instNoTrack nB "zzz").2 (by decide)⟩

/-- C7 (confirmed). `_convert_points` is idempotent: a mapping that is
already normalized — all keys `Node` objects covering exactly the
skeleton's node set, all values of the instance's point type — is returned
unchanged (keys pass the `type(node) == Node` branch, values the
`type(point) == self._POINT_TYPE` branch, and no node is missing). -/
theorem C7 (skel : Skeleton) (pts : List (Node × Point))
    (hnd : (keysOf pts).Nodup)
    (hcov : ∀ n : Node, n ∈ keysOf pts ↔ n ∈ skel.nodes) :
    convert_points skel
      (.dict (pts.map (fun kv => (RawKey.node kv.fst, RawPoint.pt kv.snd)))) = .ok pts := by
  have hks : (pts.map (fun kv => (RawKey.node kv.fst, RawPoint.pt kv.snd))).mapM
      (fun e => resolveKey skel e.fst) = .ok (keysOf pts) := by
    rw [mapM_ok_of_forall _ (fun e => rawKeyNode e.fst) _ ?_]
    · congr 1
      simp [List.map_map, keysOf, Function.comp, rawKeyNode]
    · intro x hx
      rcases List.mem_map.mp hx with ⟨kv, -, rfl⟩
      rfl
  have hvs : (pts.map (fun kv => (RawKey.node kv.fst, RawPoint.pt kv.snd))).mapM
      (fun e => resolveVal asPointVal make_default_point e.snd) = .ok (pts.map Prod.snd) := by
    rw [mapM_ok_of_forall _ (fun e => rawPointVal e.snd) _ ?_]
    · congr 1
      simp [List.map_map, Function.comp, rawPointVal]
    · intro x hx
      rcases List.mem_map.mp hx with ⟨kv, -, rfl⟩
      rfl
  rw [convert_points, convert_points_gen, dictStage]
  simp only [hks, hvs, Bind.bind, Except.bind]
  rw [show (keysOf pts).zip (pts.map Prod.snd) = pts from zip_fst_snd pts]
  rw [dictOfPairs_nodup pts hnd,
    addMissing_of_complete _ _ _ (fun n hn => (hcov n).mpr hn)]

/-- C7 (witness): re-normalizing the already-normalized mapping `ptsA` of
the one-node skeleton returns it unchanged. -/
theorem C7_witness :
    convert_points skel1
      (.dict (ptsA.map (fun kv => (RawKey.node kv.fst, RawPoint.pt kv.snd)))) = .ok ptsA :=
  C7 skel1 ptsA (by decide) (fun n => Iff.rfl)

lemma mapM_ok_mem {α β : Type} (f : α → Except String β) :
    ∀ (l : List α) (r : List β), l.mapM f = .ok r → ∀ b ∈ r, ∃ a ∈ l, f a = .ok b := by
  intro l
  induction l with
  | nil =>
    intro r h b hb
    simp only [List.mapM_nil] at h
    cases h
    simp at hb
  | cons a t ih =>
    intro r h b hb
    rw [List.mapM_cons] at h
    cases hfa : f a with
    | error e => rw [hfa] at h; simp [Bind.bind, Except.bind] at h
    | ok v =>
      rw [hfa] at h
      cases hft : t.mapM f with
      | error e => rw [hft] at h; simp [Bind.bind, Except.bind, Pure.pure] at h
      | ok vs =>
        rw [hft] at h
        simp only [Bind.bind, Except.bind, Pure.pure] at h
        cases h
        rcases List.mem_cons.mp hb with rfl | hmem
        · exact ⟨a, List.mem_cons_self a t, hfa⟩
        · rcases ih vs hft b hmem with ⟨x, hx, hfx⟩
          exact ⟨x, List.mem_cons_of_mem a hx, hfx⟩

lemma dictStage_ok {P : Type} (asP : RawPoint → Option P) (mkDef : F → F → P)
    (skel : Skeleton) (es : List (RawKey × RawPoint)) (pts : List (Node × P))
    (h : dictStage asP mkDef skel es = .ok pts) :
    ∃ ks vs, es.mapM (fun e => resolveKey skel e.fst) = .ok ks ∧
      es.mapM (fun e => resolveVal asP mkDef e.snd) = .ok vs ∧
      pts = addMissing mkDef skel (dictOfPairs (ks.zip vs)) := by
  rw [dictStage] at h
  cases hks : es.mapM (fun e => resolveKey skel e.fst) with
  | error e => rw [hks] at h; simp [Bind.bind, Except.bind] at h
  | ok ks =>
    rw [hks] at h
    cases hvs : es.mapM (fun e => resolveVal asP mkDef e.snd) with
    | error e => rw [hvs] at h; simp [Bind.bind, Except.bind] at h
    | ok vs =>
      rw [hvs] at h
      simp only [Bind.bind, Except.bind] at h
      cases h
      exact ⟨ks, vs, rfl, rfl, rfl⟩

lemma mem_keys_dictInsert {P : Type} (d : List (Node × P)) (k : Node) (v : P) (n : Node) :
    n ∈ keysOf (dictInsert d k v) ↔ n ∈ keysOf d ∨ n = k := by
  rw [dictInsert]
  split
  · rename_i hany
    have hkeys : keysOf (d.map fun kv => if kv.fst == k then (kv.fst, v) else kv)
        = keysOf d := by
      rw [keysOf, List.map_map, keysOf]
      congr 1
      funext kv
      simp only [Function.comp_apply]
      split <;> rfl
    rw [hkeys]
    have hkmem : k ∈ keysOf d := by
      rcases List.any_eq_true.mp hany with ⟨kv, hkv, he⟩
      exact (beq_iff_eq.mp he) ▸ List.mem_map_of_mem Prod.fst hkv
    constructor
    · exact Or.inl
    · rintro (h | rfl)
      · exact h
      · exact hkmem
  · rw [keysOf_append]
    simp [keysOf]

lemma mem_keys_dictOfPairs {P : Type} (l : List (Node × P)) (n : Node) :
    n ∈ keysOf (dictOfPairs l) ↔ n ∈ keysOf l := by
  have main : ∀ (l d0 : List (Node × P)),
      n ∈ keysOf (l.foldl (fun d kv => dictInsert d kv.fst kv.snd) d0) ↔
        n ∈ keysOf d0 ∨ n ∈ keysOf l := by
    intro l
    induction l with
    | nil => intro d0; simp [keysOf]
    | cons a t ih =>
      intro d0
      rw [List.foldl_cons, ih, mem_keys_dictInsert, keysOf_cons]
      simp only [List.mem_cons]
      tauto
  rw [dictOfPairs, main]
  simp [keysOf]

lemma find?_beq_mem : ∀ (l : List Node) (n : Node), n ∈ l →
    l.find? (fun m => m == n) = some n := by
  intro l
  induction l with
  | nil => intro n h; simp at h
  | cons a t ih =>
    intro n h
    by_cases hc : a = n
    · subst hc
      simp [List.find?_cons]
    · rcases List.mem_cons.mp h with rfl | hmem
      · exact absurd rfl hc
      · rw [List.find?_cons]
        have hbeq : (a == n) = false := beq_eq_false_iff_ne.mpr hc
        rw [hbeq]
        exact ih n hmem

/-- C5 (confirmed). Every skeleton node that no caller-supplied dictionary
key denotes ends up mapped to the synthesized invisible `(NaN, NaN)` point;
and the spec's worked example — `{"head": (1,1)}` against the skeleton
`[head, tail, thorax]` — yields exactly `head=(1,1,visible)` with `tail`
and `thorax` invisible at NaN. -/
theorem C5 :
    (∀ (skel : Skeleton) (es : List (RawKey × RawPoint)) (pts : List (Node × Point)) (n : Node),
      convert_points skel (.dict es) = .ok pts → n ∈ skel.nodes →
      (∀ e ∈ es, ¬ keyResolvesTo skel e.fst n) →
      lookupNode pts n = some invisibleNanPoint) ∧
    Instance.make (.dict [(RawKey.name "head", RawPoint.coords (F.val 1) (F.val 1))]) skel3
      none none = .ok headExample := by
  constructor
  · intro skel es pts n hconv hmem hnores
    rw [convert_points, convert_points_gen] at hconv
    rcases dictStage_ok _ _ _ _ _ hconv with ⟨ks, vs, hks, hvs, rfl⟩
    have hnks : n ∉ ks := by
      intro hn
      rcases mapM_ok_mem _ _ _ hks n hn with ⟨e, he, hre⟩
      exact hnores e he hre
    have hnd : n ∉ keysOf (dictOfPairs (ks.zip vs)) := by
      rw [mem_keys_dictOfPairs]
      intro hn
      rcases List.mem_map.mp hn with ⟨kv, hkv, rfl⟩
      exact hnks (List.of_mem_zip hkv).1
    rw [addMissing, lookupNode, List.find?_append]
    have h1 : (dictOfPairs (ks.zip vs)).find? (fun kv => kv.fst == n) = none := by
      rw [List.find?_eq_none]
      intro kv hkv
      simp only [beq_iff_eq]
      intro he
      exact hnd (he ▸ List.mem_map_of_mem Prod.fst hkv)
    rw [h1, Option.none_or, List.find?_map]
    have hmem2 : n ∈ skel.nodes.filter
        (fun m => !((keysOf (dictOfPairs (ks.zip vs))).contains m)) := by
      rw [List.mem_filter]
      exact ⟨hmem, by simpa using hnd⟩
    have hcomp : ((fun kv : Node × Point => kv.fst == n) ∘
        (fun m => (m, make_default_point F.nan F.nan))) = fun m => m == n := rfl
    rw [hcomp, find?_beq_mem _ n hmem2]
    rfl
  · rfl

/-- C5 (witness): the general statement applied to the worked example's
node `tail`, which no supplied key denotes. -/
theorem C5_witness :
    nTail ∈ skel3.nodes ∧
    (∀ e ∈ [(RawKey.name "head", RawPoint.coords (F.val 1) (F.val 1))],
      ¬ keyResolvesTo skel3 e.fst nTail) ∧
    lookupNode headExamplePts nTail = some invisibleNanPoint :=
  ⟨by decide, by decide,
    C5.1 skel3 [(RawKey.name "head", RawPoint.coords (F.val 1) (F.val 1))]
      headExamplePts nTail rfl (by decide) (by decide)⟩

lemma keysOf_dictInsert {P : Type} (d : List (Node × P)) (k : Node) (v : P) :
    keysOf (dictInsert d k v) =
      if d.any (fun kv => kv.fst == k) then keysOf d else keysOf d ++ [k] := by
  rw [dictInsert]
  split
  · rw [keysOf, List.map_map, keysOf]
    congr 1
    funext kv
    simp only [Function.comp_apply]
    split <;> rfl
  · rw [keysOf_append]
    rfl

lemma keys_dictInsert_nodup {P : Type} (d : List (Node × P)) (k : Node) (v : P)
    (h : (keysOf d).Nodup) : (keysOf (dictInsert d k v)).Nodup := by
  rw [keysOf_dictInsert]
  split
  · exact h
  · rename_i hany
    rw [List.nodup_append]
    refine ⟨h, by simp, ?_⟩
    intro a ha hk
    have hak : a = k := List.mem_singleton.mp hk
    subst hak
    have hany2 : d.any (fun kv => kv.fst == a) = true := by
      rcases List.mem_map.mp ha with ⟨kv, hkv, hfst⟩
      exact List.any_eq_true.mpr ⟨kv, hkv, by simp [hfst]⟩
    exact hany hany2

lemma keys_dictOfPairs_nodup {P : Type} (l : List (Node × P)) :
    (keysOf (dictOfPairs l)).Nodup := by
  have main : ∀ (l d0 : List (Node × P)), (keysOf d0).Nodup →
      (keysOf (l.foldl (fun d kv => dictInsert d kv.fst kv.snd) d0)).Nodup := by
    intro l
    induction l with
    | nil => intro d0 h; exact h
    | cons a t ih =>
      intro d0 h
      rw [List.foldl_cons]
      exact ih _ (keys_dictInsert_nodup _ _ _ h)
  exact main l [] (by simp [keysOf])

lemma keys_addMissing_eq {P : Type} (mkDef : F → F → P) (skel : Skeleton)
    (d : List (Node × P)) :
    keysOf (addMissing mkDef skel d) =
      keysOf d ++ skel.nodes.filter (fun m => !((keysOf d).contains m)) := by
  rw [addMissing, keysOf_append]
  congr 1
  rw [keysOf, List.map_map]
  have hid : (Prod.fst ∘ fun n : Node => (n, mkDef F.nan F.nan)) = id := rfl
  rw [hid, List.map_id]

lemma mem_keys_addMissing {P : Type} (mkDef : F → F → P) (skel : Skeleton)
    (d : List (Node × P)) (n : Node) :
    n ∈ keysOf (addMissing mkDef skel d) ↔ n ∈ keysOf d ∨ n ∈ skel.nodes := by
  rw [keys_addMissing_eq, List.mem_append, List.mem_filter]
  constructor
  · rintro (h | ⟨h, -⟩)
    · exact Or.inl h
    · exact Or.inr h
  · rintro (h | h)
    · exact Or.inl h
    · by_cases hd : n ∈ keysOf d
      · exact Or.inl hd
      · exact Or.inr ⟨h, by simpa using hd⟩

lemma keys_addMissing_nodup {P : Type} (mkDef : F → F → P) (skel : Skeleton)
    (d : List (Node × P)) (hd : (keysOf d).Nodup) (hs : skel.nodes.Nodup) :
    (keysOf (addMissing mkDef skel d)).Nodup := by
  rw [keys_addMissing_eq, List.nodup_append]
  refine ⟨hd, hs.filter _, ?_⟩
  intro a ha hf
  rcases List.mem_filter.mp hf with ⟨-, hcon⟩
  simp [ha] at hcon

lemma length_eq_of_nodup_mem_iff (l1 l2 : List Node) (h1 : l1.Nodup) (h2 : l2.Nodup)
    (h : ∀ n, n ∈ l1 ↔ n ∈ l2) : l1.length = l2.length := by
  rw [← List.toFinset_card_of_nodup h1, ← List.toFinset_card_of_nodup h2]
  congr 1
  ext a
  simp [h a]

lemma resolveKey_ok_mem_nodes (skel : Skeleton) (k : RawKey) (n : Node)
    (hres : resolveKey skel k = .ok n)
    (hOk : ∀ m : Node, k = RawKey.node m → m ∈ skel.nodes) : n ∈ skel.nodes := by
  cases k with
  | node m =>
    rw [resolveKey] at hres
    cases hres
    exact hOk n rfl
  | name s =>
    rw [resolveKey, Skeleton.lookupName] at hres
    cases hfind : skel.nodes.find? (fun m => m.name == s) with
    | none => rw [hfind] at hres; cases hres
    | some m =>
      rw [hfind] at hres
      cases hres
      exact List.mem_of_find?_eq_some hfind

lemma dictStage_keys {P : Type} (asP : RawPoint → Option P) (mkDef : F → F → P)
    (skel : Skeleton) (es : List (RawKey × RawPoint)) (pts : List (Node × P))
    (hnd : skel.nodes.Nodup) (h : dictStage asP mkDef skel es = .ok pts) :
    (∀ n ∈ skel.nodes, n ∈ keysOf pts) ∧
    ((∀ e ∈ es, ∀ m : Node, e.fst = RawKey.node m → m ∈ skel.nodes) →
      (∀ n : Node, n ∈ keysOf pts ↔ n ∈ skel.nodes) ∧ pts.length = skel.nodes.length) := by
  rcases dictStage_ok _ _ _ _ _ h with ⟨ks, vs, hks, hvs, rfl⟩
  constructor
  · intro n hn
    exact (mem_keys_addMissing _ _ _ _).mpr (Or.inr hn)
  · intro hOk
    have hsub : ∀ n, n ∈ keysOf (dictOfPairs (ks.zip vs)) → n ∈ skel.nodes := by
      intro n hn
      have hninks : n ∈ ks := by
        rcases List.mem_map.mp ((mem_keys_dictOfPairs _ _).mp hn) with ⟨kv, hkv, rfl⟩
        exact (List.of_mem_zip hkv).1
      rcases mapM_ok_mem _ _ _ hks n hninks with ⟨e, he, hre⟩
      exact resolveKey_ok_mem_nodes skel e.fst n hre (fun m hm => hOk e he m hm)
    have hiff : ∀ n : Node,
        n ∈ keysOf (addMissing mkDef skel (dictOfPairs (ks.zip vs))) ↔ n ∈ skel.nodes := by
      intro n
      rw [mem_keys_addMissing]
      constructor
      · rintro (hd | hd)
        · exact hsub n hd
        · exact hd
      · exact Or.inr
    refine ⟨hiff, ?_⟩
    have hlen : (keysOf (addMissing mkDef skel (dictOfPairs (ks.zip vs)))).length =
        skel.nodes.length :=
      length_eq_of_nodup_mem_iff _ _
        (keys_addMissing_nodup _ _ _ (keys_dictOfPairs_nodup _) hnd) hnd hiff
    simpa [keysOf] using hlen

lemma listStage_ok_dict {P : Type} (asP : RawPoint → Option P) (mkDef : F → F → P)
    (skel : Skeleton) (items : List RawPoint) (pts : List (Node × P))
    (h : listStage asP mkDef skel items = .ok pts) :
    items.length = skel.nodes.length ∧
    dictStage asP mkDef skel
      ((skel.nodes.zip items).map (fun nv => (RawKey.node nv.fst, nv.snd))) = .ok pts := by
  rw [listStage] at h
  split at h
  · cases h
  · rename_i hlen
    exact ⟨not_ne_iff.mp hlen, h⟩

lemma zip_entries_keys_ok {α : Type} (skel : Skeleton) (items : List α) :
    ∀ e ∈ (skel.nodes.zip items).map (fun nv => (RawKey.node nv.fst, nv.snd)),
      ∀ m : Node, e.fst = RawKey.node m → m ∈ skel.nodes := by
  intro e he m hm
  rcases List.mem_map.mp he with ⟨nv, hnv, rfl⟩
  have hmem := (List.of_mem_zip hnv).1
  injection hm with h'
  exact h' ▸ hmem

lemma convert_points_keys (skel : Skeleton) (input : PointsInput) (pts : List (Node × Point))
    (hnd : skel.nodes.Nodup) (h : convert_points skel input = .ok pts) :
    ConvertKeysSpec skel input pts := by
  cases input with
  | dict es =>
    rw [convert_points, convert_points_gen] at h
    have := dictStage_keys _ _ _ _ _ hnd h
    exact ⟨this.1, fun hOk => this.2 hOk⟩
  | list items =>
    rw [convert_points, convert_points_gen] at h
    rcases listStage_ok_dict _ _ _ _ _ h with ⟨-, hdict⟩
    have := dictStage_keys _ _ _ _ _ hnd hdict
    exact ⟨this.1, fun _ => this.2 (zip_entries_keys_ok skel items)⟩
  | arr rows =>
    rw [convert_points, convert_points_gen] at h
    rcases listStage_ok_dict _ _ _ _ _ h with ⟨-, hdict⟩
    have := dictStage_keys _ _ _ _ _ hnd hdict
    exact ⟨this.1, fun _ => this.2 (zip_entries_keys_ok skel _)⟩

lemma Instance.make_ok (input : PointsInput) (skel : Skeleton) (tr : Option Track)
    (fp : Option PredictedInstance) (inst : Instance)
    (h : Instance.make input skel tr fp = .ok inst) :
    convert_points skel input = .ok inst.points ∧ inst.skeleton = skel ∧
      inst.track = tr ∧ inst.from_predicted = fp := by
  rw [Instance.make] at h
  cases hc : convert_points skel input with
  | error e => rw [hc] at h; simp [Bind.bind, Except.bind] at h
  | ok pts =>
    rw [hc] at h
    simp only [Bind.bind, Except.bind] at h
    cases h
    exact ⟨rfl, rfl, rfl, rfl⟩

lemma Instance.setPoints_ok (inst0 : Instance) (input : PointsInput) (inst : Instance)
    (h : Instance.setPoints inst0 input = .ok inst) :
    convert_points inst0.skeleton input = .ok inst.points := by
  rw [Instance.setPoints] at h
  cases hc : convert_points inst0.skeleton input with
  | error e => rw [hc] at h; simp [Bind.bind, Except.bind] at h
  | ok pts =>
    rw [hc] at h
    simp only [Bind.bind, Except.bind] at h
    cases h
    rfl

/-- C3 (amended). For every successful construction (and reassignment of
`points`), the key set of the resulting mapping always CONTAINS the
skeleton's node set; it equals the node set exactly — and the mapping's
size equals the node count — for array and list inputs and for dictionary
inputs whose `Node`-object keys all belong to the skeleton. (A dictionary
holding a foreign `Node` key is accepted without error and yields extra
entries, which is what refutes the original claim.) -/
theorem C3_amended (skel : Skeleton) (input : PointsInput) (tr : Option Track)
    (fp : Option PredictedInstance) (inst0 : Instance)
    (hnd : skel.nodes.Nodup) (hsk : inst0.skeleton = skel) :
    (∀ inst, Instance.make input skel tr fp = .ok inst →
      ConvertKeysSpec skel input inst.points) ∧
    (∀ inst, Instance.setPoints inst0 input = .ok inst →
      ConvertKeysSpec skel input inst.points) := by
  constructor
  · intro inst h
    exact convert_points_keys skel input inst.points hnd (Instance.make_ok _ _ _ _ _ h).1
  · intro inst h
    exact convert_points_keys skel input inst.points hnd (hsk ▸ Instance.setPoints_ok _ _ _ h)

/-- C3 (counterexample). A mapping input whose key is a `Node` object not in
the skeleton is accepted (`_convert_points` passes `Node` keys through
unchecked), and the constructed instance has two entries over a one-node
skeleton — so the key set is not the skeleton's node set and the lengths
differ, refuting the claim. -/
theorem C3_counterexample :
    (Instance.make (.dict [(RawKey.node nB, RawPoint.coords (F.val 1) (F.val 1))]) skel1
      none none).map (fun inst => (keysOf inst.points, inst.points.length)) =
      .ok ([nB, nA], 2) ∧
    skel1.nodes.length = 1 := ⟨rfl, rfl⟩

/-- C3 (witness): the amended statement applied to a full-length list input
over the three-node skeleton. -/
theorem C3_amended_witness :
    skel3.nodes.Nodup ∧ ConvertKeysSpec skel3 c3input c3inst.points :=
  ⟨by decide, (C3_amended skel3 c3input none none c3inst (by decide) rfl).1 c3inst rfl⟩

/-- C10 (confirmed). The attrs-generated `PredictedInstance` equality also
compares `score` and `tracking_score` (and `from_predicted`, which the
validator pins to `None`, making that comparison vacuous): differing scores
make otherwise-equal instances unequal, and equality holds when the point
mappings compare equal and all remaining fields agree. -/
theorem C10 (a b : PredictedInstance) :
    (pyEq a.score b.score = false → PredictedInstance.beq a b = false) ∧
    (optBeq pyEq a.trackingScore b.trackingScore = false →
      PredictedInstance.beq a b = false) ∧
    (compare_points PredictedPoint.beq a.points b.points = true →
      a.skeleton = b.skeleton → a.track = b.track → pyEq a.score b.score = true →
      optBeq pyEq a.trackingScore b.trackingScore = true →
      PredictedInstance.beq a b = true) := by
  refine ⟨?_, ?_, ?_⟩
  · intro h
    simp [PredictedInstance.beq, h]
  · intro h
    simp [PredictedInstance.beq, h]
  · intro h1 h2 h3 h4 h5
    simp [PredictedInstance.beq, h1, h2, h3, h4, h5]

/-- C10 (witness): two concrete predictions over the one-node skeleton with
equal point mappings, skeleton and track but scores `0` and `1` compare
unequal.
-/
theorem C10_witness :
    pyEq predScore0.score predScore1.score = false ∧
    PredictedInstance.beq predScore0 predScore1 = false :=
  ⟨by decide, (C10 predScore0 predScore1).1 (by decide)⟩

lemma convert_arr (skel : Skeleton) (arr : List (F × F))
    (hnd : skel.nodes.Nodup) (hlen : arr.length = skel.nodes.length) :
    convert_points skel (.arr arr) =
      .ok (skel.nodes.zip (arr.map (fun r => make_default_point r.fst r.snd))) := by
  rw [convert_points, convert_points_gen, listStage, if_neg (by simp [hlen])]
  set items := arr.map (fun r => RawPoint.coords r.fst r.snd) with hitems
  have hlen2 : items.length = arr.length := by simp [hitems]
  set entries := (skel.nodes.zip items).map (fun nv => (RawKey.node nv.fst, nv.snd)) with hentries
  have hks : entries.mapM (fun e => resolveKey skel e.fst) = .ok skel.nodes := by
    rw [mapM_ok_of_forall _ (fun e => rawKeyNode e.fst) _ ?_]
    · congr 1
      rw [hentries, List.map_map]
      have : ((fun e : RawKey × RawPoint => rawKeyNode e.fst) ∘
          (fun nv : Node × RawPoint => (RawKey.node nv.fst, nv.snd))) = Prod.fst := rfl
      rw [this, List.map_fst_zip _ _ (by rw [hlen2, hlen])]
    · intro x hx
      rcases List.mem_map.mp hx with ⟨nv, -, rfl⟩
      rfl
  have hvs : entries.mapM (fun e => resolveVal asPointVal make_default_point e.snd) =
      .ok (arr.map (fun r => make_default_point r.fst r.snd)) := by
    rw [mapM_ok_of_forall _ (fun e => rawPointVal e.snd) _ ?_]
    · congr 1
      rw [hentries, List.map_map]
      have h1 : ((fun e : RawKey × RawPoint => rawPointVal e.snd) ∘
          (fun nv : Node × RawPoint => (RawKey.node nv.fst, nv.snd))) =
          (rawPointVal ∘ Prod.snd) := rfl
      rw [h1, ← List.map_map, List.map_snd_zip _ _ (by rw [hlen2, hlen]), hitems,
        List.map_map]
      rfl
    · intro x hx
      rcases List.mem_map.mp hx with ⟨nv, hnv, rfl⟩
      have : ∃ r : F × F, nv.snd = RawPoint.coords r.fst r.snd := by
        rcases (List.of_mem_zip hnv).2 with hmem
        rcases List.mem_map.mp (hitems ▸ hmem) with ⟨r, -, hr⟩
        exact ⟨r, hr.symm⟩
      rcases this with ⟨r, hr⟩
      simp only [hr]
      rfl
  rw [dictStage]
  simp only [hks, hvs, Bind.bind, Except.bind]
  have hkeyszip : keysOf (skel.nodes.zip (arr.map (fun r => make_default_point r.fst r.snd)))
      = skel.nodes := by
    rw [keysOf, List.map_fst_zip _ _ (by simp [hlen])]
  rw [dictOfPairs_nodup _ (by rw [hkeyszip]; exact hnd),
    addMissing_of_complete _ _ _ (fun n hn => by rw [hkeyszip]; exact hn)]

lemma foldlM_numpyStep_ok (skel : Skeleton) :
    ∀ (l : List (Node × Point)) (acc : List (F × F)), (∀ kv ∈ l, kv.fst ∈ skel.nodes) →
      List.foldlM (numpyStep skel) acc l = .ok (l.foldl (numpyStepP skel) acc) := by
  intro l
  induction l with
  | nil => intro acc _; rfl
  | cons a t ih =>
    intro acc h
    rw [List.foldlM_cons, List.foldl_cons]
    have ha : a.fst ∈ skel.nodes := h a (List.mem_cons_self a t)
    have hstep : numpyStep skel acc a = .ok (numpyStepP skel acc a) := by
      rw [numpyStep, numpyStepP, Skeleton.index, if_pos ha]
      split <;> rfl
    rw [hstep]
    simpa [Bind.bind, Except.bind] using ih _ (fun kv hkv => h kv (List.mem_cons_of_mem a hkv))

lemma foldl_numpyStepP_eq_opsOf (skel : Skeleton) :
    ∀ (l : List (Node × Point)) (acc : List (F × F)),
      l.foldl (numpyStepP skel) acc =
        (opsOf skel l).foldl (fun a iv => a.set iv.fst iv.snd) acc := by
  intro l
  induction l with
  | nil => intro acc; rfl
  | cons a t ih =>
    intro acc
    rw [List.foldl_cons, opsOf, List.filterMap_cons]
    by_cases hv : a.snd.visible
    · rw [if_pos hv]
      rw [List.foldl_cons]
      rw [numpyStepP, if_pos hv]
      exact ih _
    · rw [if_neg hv]
      rw [numpyStepP, if_neg hv]
      exact ih _

lemma foldl_set_length :
    ∀ (ps : List (Nat × (F × F))) (acc : List (F × F)),
      (ps.foldl (fun a iv => a.set iv.fst iv.snd) acc).length = acc.length := by
  intro ps
  induction ps with
  | nil => intro acc; rfl
  | cons a t ih => intro acc; rw [List.foldl_cons, ih, List.length_set]

lemma foldl_set_get_not_mem :
    ∀ (ps : List (Nat × (F × F))) (acc : List (F × F)) (j : Nat),
      (∀ v, (j, v) ∉ ps) →
      (ps.foldl (fun a iv => a.set iv.fst iv.snd) acc)[j]? = acc[j]? := by
  intro ps
  induction ps with
  | nil => intro acc j _; rfl
  | cons a t ih =>
    intro acc j h
    rw [List.foldl_cons, ih _ j (fun v hv => h v (List.mem_cons_of_mem a hv))]
    have hne : a.fst ≠ j := by
      intro he
      exact h a.snd (by rw [← he]; exact List.mem_cons_self _ _)
    exact List.getElem?_set_ne hne
  
lemma foldl_set_get_mem :
    ∀ (ps : List (Nat × (F × F))) (acc : List (F × F)) (j : Nat) (v : F × F),
      (ps.map Prod.fst).Nodup → (∀ iv ∈ ps, iv.fst < acc.length) → (j, v) ∈ ps →
      (ps.foldl (fun a iv => a.set iv.fst iv.snd) acc)[j]? = some v := by
  intro ps
  induction ps with
  | nil => intro acc j v _ _ h; simp at h
  | cons a t ih =>
    intro acc j v hnd hlt hmem
    rw [List.foldl_cons]
    rw [List.map_cons] at hnd
    rcases List.mem_cons.mp hmem with rfl | hmem2
    · rcases List.nodup_cons.mp hnd with ⟨hna, -⟩
      have hjt : ∀ w, (j, w) ∉ t := by
        intro w hw
        have hjm : j ∈ t.map Prod.fst := List.mem_map_of_mem Prod.fst hw
        exact hna hjm
      rw [foldl_set_get_not_mem t _ j hjt]
      exact List.getElem?_set_self (hlt (j, v) (List.mem_cons_self _ _))
    · rcases List.nodup_cons.mp hnd with ⟨-, hnt⟩
      exact ih _ j v hnt
        (fun iv hiv => by rw [List.length_set]; exact hlt iv (List.mem_cons_of_mem a hiv))
        hmem2

lemma opsOf_eq_map_filter (skel : Skeleton) (l : List (Node × Point)) :
    opsOf skel l = (l.filter (fun kv => kv.snd.visible)).map
      (fun kv => (skel.indexOfNode kv.fst, (kv.snd.x, kv.snd.y))) := by
  induction l with
  | nil => rfl
  | cons a t ih =>
    by_cases hv : a.snd.visible
    · simp only [opsOf, List.filterMap_cons, List.filter_cons, hv, if_pos, List.map_cons] at ih ⊢
      rw [ih]
    · simp only [opsOf, List.filterMap_cons, List.filter_cons, hv, Bool.false_eq_true,
        if_false, List.map_cons] at ih ⊢
      rw [ih]

lemma opsOf_fst_nodup (skel : Skeleton) (l : List (Node × Point))
    (hnd : (keysOf l).Nodup) (hsub : ∀ kv ∈ l, kv.fst ∈ skel.nodes) :
    ((opsOf skel l).map Prod.fst).Nodup := by
  rw [opsOf_eq_map_filter, List.map_map]
  have hcomp : (Prod.fst ∘ fun kv : Node × Point =>
      (skel.indexOfNode kv.fst, (kv.snd.x, kv.snd.y))) =
      (fun kv : Node × Point => skel.indexOfNode kv.fst) := rfl
  rw [hcomp]
  have hfil : (l.filter (fun kv => kv.snd.visible)).Sublist l := List.filter_sublist l
  have hkeysnd : ((l.filter (fun kv => kv.snd.visible)).map Prod.fst).Nodup :=
    (hfil.map Prod.fst).nodup hnd
  have : (fun kv : Node × Point => skel.indexOfNode kv.fst) =
      (skel.indexOfNode ∘ Prod.fst) := rfl
  rw [this, ← List.map_map]
  refine hkeysnd.map_on ?_
  intro x hx y hy hxy
  rcases List.mem_map.mp hx with ⟨kvx, hkvx, rfl⟩
  rcases List.mem_map.mp hy with ⟨kvy, hkvy, rfl⟩
  have hxmem : kvx.fst ∈ skel.nodes := hsub kvx (hfil.mem hkvx)
  have hymem : kvy.fst ∈ skel.nodes := hsub kvy (hfil.mem hkvy)
  exact (List.indexOf_inj hxmem hymem).mp hxy

lemma isNan_true_iff (a : F) : a.isNan = true ↔ a = F.nan := by
  cases a <;> simp [F.isNan]

lemma mem_opsOf_zip (skel : Skeleton) (arr : List (F × F))
    (hnd : skel.nodes.Nodup) (hlen : arr.length = skel.nodes.length) (j : Nat) (v : F × F) :
    (j, v) ∈ opsOf skel (skel.nodes.zip (arr.map (fun r => make_default_point r.fst r.snd))) ↔
      ∃ _ : j < arr.length,
        (arr[j].fst.isNan || arr[j].snd.isNan) = false ∧ v = arr[j] := by
  have hmaplen : (arr.map (fun r => make_default_point r.fst r.snd)).length = arr.length :=
    List.length_map _ _
  have hziplen :
      (skel.nodes.zip (arr.map (fun r => make_default_point r.fst r.snd))).length =
        arr.length := by
    rw [List.length_zip, hmaplen, hlen, Nat.min_self]
  rw [opsOf, List.mem_filterMap]
  constructor
  · rintro ⟨kv, hkv, hf⟩
    rcases List.mem_iff_getElem.mp hkv with ⟨i, hi, hkveq⟩
    have hi2 : i < arr.length := by rw [← hziplen]; exact hi
    have hkveq2 : kv = (skel.nodes[i], make_default_point arr[i].fst arr[i].snd) := by
      rw [← hkveq, List.getElem_zip]
      congr 1
      rw [List.getElem_map]
    subst hkveq2
    by_cases hvis : (arr[i].fst.isNan || arr[i].snd.isNan) = false
    · rw [if_pos (by simp [make_default_point, hvis])] at hf
      have hidx : skel.indexOfNode skel.nodes[i] = i :=
        List.indexOf_getElem hnd i (by rw [← hlen]; exact hi2)
      simp only [make_default_point] at hf
      injection hf with hf1
      injection hf1 with hj hv
      have hij : i = j := by rw [hidx] at hj; exact hj
      subst hij
      exact ⟨hi2, hvis, hv.symm⟩
    · rw [if_neg ?_] at hf
      · cases hf
      · have hvis2 : (arr[i].fst.isNan || arr[i].snd.isNan) = true := by
          rcases Bool.eq_false_or_eq_true (arr[i].fst.isNan || arr[i].snd.isNan) with hb | hb
          · exact hb
          · exact absurd hb hvis
        simp [make_default_point, hvis2]
  · rintro ⟨hj, hvis, rfl⟩
    have hjn : j < skel.nodes.length := by rw [← hlen]; exact hj
    refine ⟨(skel.nodes.get ⟨j, hjn⟩,
      make_default_point (arr[j].fst) (arr[j].snd)), ?_, ?_⟩
    · apply List.mem_iff_getElem.mpr
      refine ⟨j, by rw [hziplen]; exact hj, ?_⟩
      rw [List.getElem_zip]
      congr 1
      rw [List.getElem_map]
    · rw [if_pos (by simp [make_default_point, hvis])]
      have hidx : skel.indexOfNode (skel.nodes.get ⟨j, hjn⟩) = j :=
        List.indexOf_getElem hnd j hjn
      rw [hidx]
      simp [make_default_point]

lemma numpy_from_numpy (skel : Skeleton) (arr : List (F × F)) (tr : Option Track)
    (inst : Instance) (hnd : skel.nodes.Nodup) (hlen : arr.length = skel.nodes.length)
    (hmk : Instance.from_numpy arr skel tr = .ok inst) :
    inst.numpy = .ok (arr.map collapseRow) := by
  rcases Instance.make_ok _ _ _ _ _ hmk with ⟨hconv, hskel, -, -⟩
  rw [convert_arr skel arr hnd hlen] at hconv
  have hpts : inst.points =
      skel.nodes.zip (arr.map (fun r => make_default_point r.fst r.snd)) :=
    (Except.ok.inj hconv).symm
  have hksub : ∀ kv ∈ skel.nodes.zip (arr.map (fun r => make_default_point r.fst r.snd)),
      kv.fst ∈ skel.nodes := fun kv hkv => (List.of_mem_zip hkv).1
  rw [Instance.numpy, hpts, hskel]
  rw [foldlM_numpyStep_ok skel _ _ hksub, foldl_numpyStepP_eq_opsOf]
  congr 1
  have hkeysnd :
      (keysOf (skel.nodes.zip (arr.map (fun r => make_default_point r.fst r.snd)))).Nodup := by
    rw [keysOf, List.map_fst_zip _ _ (by rw [List.length_map, hlen])]
    exact hnd
  have hbounds : ∀ iv ∈ opsOf skel
      (skel.nodes.zip (arr.map (fun r => make_default_point r.fst r.snd))),
      iv.fst < (List.replicate skel.nodes.length ((F.nan, F.nan) : F × F)).length := by
    intro iv hiv
    rcases (mem_opsOf_zip skel arr hnd hlen iv.fst iv.snd).mp (by simpa using hiv)
      with ⟨hlt, -, -⟩
    rw [List.length_replicate, ← hlen]
    exact hlt
  apply List.ext_getElem?
  intro j
  by_cases hj : j < arr.length
  · by_cases hvis : (arr[j].fst.isNan || arr[j].snd.isNan) = false
    · have hmem : (j, arr[j]) ∈ opsOf skel
          (skel.nodes.zip (arr.map (fun r => make_default_point r.fst r.snd))) :=
        (mem_opsOf_zip skel arr hnd hlen j arr[j]).mpr ⟨hj, hvis, rfl⟩
      rw [foldl_set_get_mem _ _ j arr[j]
        (opsOf_fst_nodup skel _ hkeysnd hksub) hbounds hmem]
      rw [List.getElem?_map, List.getElem?_eq_getElem hj]
      simp [collapseRow, hvis]
    · have hvis2 : (arr[j].fst.isNan || arr[j].snd.isNan) = true := by
        rcases Bool.eq_false_or_eq_true (arr[j].fst.isNan || arr[j].snd.isNan) with hb | hb
        · exact hb
        · exact absurd hb hvis
      have hnomem : ∀ v, (j, v) ∉ opsOf skel
          (skel.nodes.zip (arr.map (fun r => make_default_point r.fst r.snd))) := by
        intro v hv
        rcases (mem_opsOf_zip skel arr hnd hlen j v).mp hv with ⟨h1, hvf, h2⟩
        rw [hvis2] at hvf
        cases hvf
      rw [foldl_set_get_not_mem _ _ j hnomem, List.getElem?_replicate,
        if_pos (by rw [← hlen]; exact hj)]
      rw [List.getElem?_map, List.getElem?_eq_getElem hj]
      simp [collapseRow, hvis2]
  · rw [List.getElem?_eq_none, List.getElem?_eq_none]
    · rw [List.length_map]
      exact Nat.le_of_not_lt hj
    · rw [foldl_set_length, List.length_replicate, ← hlen]
      exact Nat.le_of_not_lt hj

/-- C4 (counterexample). The claim asserts the round-trip returns the array
NaN-tolerantly (NaN positions coincide, numeric positions equal; in the `F`
model that comparison is plain equality). For the row `(NaN, 5)` the
constructor marks the point invisible, so `numpy()` returns `(NaN, NaN)`:
position 1 is numeric in the input but NaN in the output. -/
theorem C4_counterexample :
    (Instance.from_numpy [(F.nan, F.val 5)] skel1 none).bind Instance.numpy =
      .ok [(F.nan, F.nan)] ∧
    ([(F.nan, F.nan)] : List (F × F)) ≠ [(F.nan, F.val 5)] :=
  ⟨rfl, by decide⟩

/-- C4 (amended). `from_numpy(arr, skel).numpy()` returns `arr` with every
row containing at least one NaN coordinate collapsed to `(NaN, NaN)`; in
particular the round-trip returns `arr` exactly (NaN-tolerantly) whenever
every row has either both or neither coordinate NaN. -/
theorem C4_amended (skel : Skeleton) (arr : List (F × F)) (tr : Option Track)
    (inst : Instance) (hnd : skel.nodes.Nodup) (hlen : arr.length = skel.nodes.length)
    (hmk : Instance.from_numpy arr skel tr = .ok inst) :
    inst.numpy = .ok (arr.map collapseRow) ∧
    ((∀ r ∈ arr, r.fst.isNan = r.snd.isNan) → inst.numpy = .ok arr) := by
  have h1 := numpy_from_numpy skel arr tr inst hnd hlen hmk
  refine ⟨h1, fun hcons => ?_⟩
  rw [h1]
  congr 1
  have : ∀ r ∈ arr, collapseRow r = r := by
    intro r hr
    rw [collapseRow]
    cases hx : r.fst.isNan with
    | true =>
      have hy : r.snd.isNan = true := by rw [← hcons r hr]; exact hx
      have hxe : r.fst = F.nan := (isNan_true_iff _).mp hx
      have hye : r.snd = F.nan := (isNan_true_iff _).mp hy
      rw [if_pos (by simp)]
      exact (Prod.ext_iff.mpr ⟨hxe, hye⟩).symm
    | false =>
      have hy : r.snd.isNan = false := by rw [← hcons r hr]; exact hx
      rw [if_neg (by simp [hy])]
  calc arr.map collapseRow = arr.map id := List.map_congr_left this
    _ = arr := List.map_id arr

/-- C4 (witness): the amended round-trip on `[(1,2), (nan,nan)]` over a
two-node skeleton. -/
theorem C4_amended_witness :
    skel2.nodes.Nodup ∧
    ([(F.val 1, F.val 2), (F.nan, F.nan)] : List (F × F)).length = skel2.nodes.length ∧
    c4inst.numpy = .ok [(F.val 1, F.val 2), (F.nan, F.nan)] :=
  ⟨by decide, by decide,
    (C4_amended skel2 [(F.val 1, F.val 2), (F.nan, F.nan)] none c4inst
      (by decide) (by decide) rfl).2 (by decide)⟩

end SleapIO
